import Mathlib

/-!
Shallow embedding of the FoodBridge admin routes: the team-member CRUD
routes of src/team.js, the project CRUD routes of src/unnamed/part_000,
the Project mongoose schema of src/unnamed/part_001, and the static
recommendations route at the end of src/team.js.  Each Express handler
becomes a pure function from the request data and the current document
store to a wire response, the updated store, and the list of store
operations it performed.
-/

namespace FoodBridge

/-- JSON-like wire values: the shape of every response body. -/
inductive JVal where
  | null
  | bool (b : Bool)
  | num (n : Nat)
  | str (s : String)
  | arr (xs : List JVal)
  | obj (fields : List (String × JVal))

/-- A stored User document (collection behind the member routes).
Modelled from the spec: models/User.js is not under src/; section 3 of the
spec gives its fields (name, email, role, githubUsername, assignedProjects,
status, createdAt) plus the password credential that every read path
strips. Ids and timestamps are modelled as naturals. -/
structure Member where
  _id : Nat
  name : String
  email : String
  role : String
  githubUsername : String
  assignedProjects : List Nat
  status : String
  createdAt : Nat
  password : String
deriving DecidableEq

/-- A stored Project document, following the mongoose schema in
src/unnamed/part_001. -/
structure Project where
  _id : Nat
  projectName : String
  description : String
  githubRepo : String
  teamMembers : List Nat
  status : String
  createdAt : Nat
  updatedAt : Nat
deriving DecidableEq

/-- The document store: the User and Project collections. -/
structure Store where
  users : List Member
  projects : List Project
deriving DecidableEq

/-- One observable operation against the document store. -/
inductive StoreOp where
  | userFind
  | userFindOne (email : Option String)
  | userFindById (i : Nat)
  | userFindIn (ids : List Nat)
  | userSave (m : Member)
  | userDelete (i : Nat)
  | projectFind
  | projectFindById (i : Nat)
  | projectSave (p : Project)
  | projectDelete (i : Nat)
deriving DecidableEq

/-- Request body for the member routes: each field is present or absent,
as destructured from req.body in src/team.js. -/
structure MemberPayload where
  name : Option String
  email : Option String
  role : Option String
  githubUsername : Option String
  assignedProjects : Option (List Nat)
  status : Option String
deriving DecidableEq

/-- Request body for the project routes, as destructured from req.body in
src/unnamed/part_000. -/
structure ProjectPayload where
  projectName : Option String
  description : Option String
  githubRepo : Option String
  teamMembers : Option (List Nat)
  status : Option String
deriving DecidableEq

/-- A wire response: HTTP status and JSON body. -/
structure Response where
  status : Nat
  body : JVal

/-- Result of running one handler: the response, the store afterwards and
the trace of store operations performed. -/
structure Outcome where
  resp : Response
  store : Store
  ops : List StoreOp

/-- JavaScript truthiness of an optional string: undefined and the empty
string are falsy. -/
def truthy : Option String → Bool
  | some s => s ≠ ""
  | none => false

/-- The JS pattern x OR old for an optional string x: take x when it is
present and truthy, else keep old. -/
def strOr (x : Option String) (old : String) : String :=
  match x with
  | some s => if s = "" then old else s
  | none => old

/-- User.findOne on an email filter: first user whose email equals the
(possibly absent) query value. -/
def findByEmail (users : List Member) (e : Option String) : Option Member :=
  users.find? (fun u => e = some u.email)

/-- User.findById. -/
def findUserById (users : List Member) (i : Nat) : Option Member :=
  users.find? (fun u => u._id = i)

/-- Project.findById. -/
def findProjectById (projects : List Project) (i : Nat) : Option Project :=
  projects.find? (fun p => p._id = i)

/-- Saving an existing document: replace the stored document carrying the
same id. -/
def saveUser (users : List Member) (m : Member) : List Member :=
  users.map (fun u => if u._id = m._id then m else u)

/-- Saving an existing project document. -/
def saveProject (projects : List Project) (p : Project) : List Project :=
  projects.map (fun q => if q._id = p._id then p else q)

/-- Modelled from the spec: models/User.js is not under src/; sections 3
and 4.2 of the spec make name and email required on every Member and
section 3 constrains status to the enum active, inactive, so save
rejects a document missing the required fields or carrying a status
outside the enum, which the route catches as a 500.  The role enum of
section 3 is open-ended, so role is left unconstrained. -/
def memberDocValid (m : Member) : Bool :=
  m.name ≠ "" && m.email ≠ "" &&
    (m.status = "active" || m.status = "inactive")

/-- Validation enforced by the Project schema in src/unnamed/part_001:
projectName and githubRepo are required and status is constrained to the
enum active, inactive, completed. -/
def projectDocValid (p : Project) : Bool :=
  p.projectName ≠ "" && p.githubRepo ≠ "" &&
    (p.status = "active" || p.status = "inactive" || p.status = "completed")

/-- Body of every failure response: success false plus an error string. -/
def errBody (msg : String) : JVal :=
  .obj [("success", .bool false), ("error", .str msg)]

/-- The 403 response every handler returns when the user-role header is
not the literal admin. -/
def accessDenied : Response :=
  ⟨403, errBody "Access denied. Admin only."⟩

/-- Insert into a list kept in descending key order (model of the store
sorting a collection by createdAt descending). -/
def insertDescBy (key : α → Nat) (x : α) : List α → List α
  | [] => [x]
  | y :: ys => if key y ≤ key x then x :: y :: ys else y :: insertDescBy key x ys

/-- Sort by a natural key, descending. -/
def sortDescBy (key : α → Nat) (xs : List α) : List α :=
  xs.foldr (insertDescBy key) []

/-- Wire record for one member in the GET /members listing. -/
def memberListItem (m : Member) : JVal :=
  .obj [("_id", .num m._id), ("name", .str m.name), ("email", .str m.email),
        ("role", .str m.role), ("githubUsername", .str m.githubUsername),
        ("assignedProjects", .arr (m.assignedProjects.map JVal.num)),
        ("status", .str (strOr (some m.status) "active")),
        ("joinedDate", .num m.createdAt)]

/-- Wire record for a member in the create and update responses. -/
def memberOut (m : Member) : JVal :=
  .obj [("_id", .num m._id), ("name", .str m.name), ("email", .str m.email),
        ("role", .str m.role), ("githubUsername", .str m.githubUsername),
        ("assignedProjects", .arr (m.assignedProjects.map JVal.num)),
        ("status", .str m.status)]

/-- Wire record for a member in the GET /members/:id response. -/
def memberOutFull (m : Member) : JVal :=
  .obj [("_id", .num m._id), ("name", .str m.name), ("email", .str m.email),
        ("role", .str m.role), ("githubUsername", .str m.githubUsername),
        ("assignedProjects", .arr (m.assignedProjects.map JVal.num)),
        ("status", .str m.status), ("joinedDate", .num m.createdAt)]

/-- GET /members: list all team members. -/
def listMembersHandler (role : Option String) (s : Store) : Outcome :=
  if role ≠ some "admin" then ⟨accessDenied, s, []⟩
  else
    ⟨⟨200, .obj [("success", .bool true),
        ("members", .arr ((sortDescBy Member.createdAt s.users).map memberListItem))]⟩,
      s, [.userFind]⟩

/-- POST /members: add a team member.  The duplicate-email lookup runs
first; the document is then built with the defaults of src/team.js lines
87 to 95 and saved, schema validation failing as a 500. -/
def createMemberHandler (role : Option String) (p : MemberPayload)
    (newId now : Nat) (s : Store) : Outcome :=
  if role ≠ some "admin" then ⟨accessDenied, s, []⟩
  else
    match findByEmail s.users p.email with
    | some _ =>
      ⟨⟨400, errBody "User with this email already exists"⟩, s,
        [.userFindOne p.email]⟩
    | none =>
      let m : Member :=
        { _id := newId
          name := p.name.getD ""
          email := p.email.getD ""
          role := strOr p.role "contributor"
          githubUsername := strOr p.githubUsername ""
          assignedProjects := p.assignedProjects.getD []
          status := strOr p.status "active"
          createdAt := now
          password := "password123" }
      if memberDocValid m then
        ⟨⟨200, .obj [("success", .bool true),
            ("message", .str "Team member added successfully"),
            ("member", memberOut m)]⟩,
          ⟨s.users ++ [m], s.projects⟩,
          [.userFindOne p.email, .userSave m]⟩
      else
        ⟨⟨500, errBody "Failed to add team member"⟩, s, [.userFindOne p.email]⟩

/-- The field-update block of PUT /members/:id (src/team.js lines 159 to
165): truthiness for name, email, role, status; presence for
githubUsername and assignedProjects. -/
def applyMemberUpdate (m : Member) (p : MemberPayload) : Member :=
  { m with
    name := strOr p.name m.name
    email := strOr p.email m.email
    role := strOr p.role m.role
    githubUsername := p.githubUsername.getD m.githubUsername
    assignedProjects := p.assignedProjects.getD m.assignedProjects
    status := strOr p.status m.status }

/-- Shared tail of PUT /members/:id after the conflict check: apply the
field updates and save. -/
def finishMemberUpdate (m : Member) (p : MemberPayload) (s : Store)
    (ops : List StoreOp) : Outcome :=
  if memberDocValid (applyMemberUpdate m p) then
    ⟨⟨200, .obj [("success", .bool true),
        ("message", .str "Team member updated successfully"),
        ("member", memberOut (applyMemberUpdate m p))]⟩,
      ⟨saveUser s.users (applyMemberUpdate m p), s.projects⟩,
      ops ++ [.userSave (applyMemberUpdate m p)]⟩
  else
    ⟨⟨500, errBody "Failed to update team member"⟩, s, ops⟩

/-- PUT /members/:id: update a team member. -/
def updateMemberHandler (role : Option String) (i : Nat) (p : MemberPayload)
    (s : Store) : Outcome :=
  if role ≠ some "admin" then ⟨accessDenied, s, []⟩
  else
    match findUserById s.users i with
    | none => ⟨⟨404, errBody "Team member not found"⟩, s, [.userFindById i]⟩
    | some m =>
      if p.email ≠ some m.email then
        match findByEmail s.users p.email with
        | some _ =>
          ⟨⟨400, errBody "Email already in use by another user"⟩, s,
            [.userFindById i, .userFindOne p.email]⟩
        | none => finishMemberUpdate m p s [.userFindById i, .userFindOne p.email]
      else finishMemberUpdate m p s [.userFindById i]

/-- DELETE /members/:id: remove a team member. -/
def deleteMemberHandler (role : Option String) (i : Nat) (s : Store) : Outcome :=
  if role ≠ some "admin" then ⟨accessDenied, s, []⟩
  else
    match findUserById s.users i with
    | none => ⟨⟨404, errBody "Team member not found"⟩, s, [.userFindById i]⟩
    | some _ =>
      ⟨⟨200, .obj [("success", .bool true),
          ("message", .str "Team member removed successfully")]⟩,
        ⟨s.users.filter (fun u => u._id ≠ i), s.projects⟩,
        [.userFindById i, .userDelete i]⟩

/-- GET /members/:id: fetch one team member. -/
def getMemberHandler (role : Option String) (i : Nat) (s : Store) : Outcome :=
  if role ≠ some "admin" then ⟨accessDenied, s, []⟩
  else
    match findUserById s.users i with
    | none => ⟨⟨404, errBody "Team member not found"⟩, s, [.userFindById i]⟩
    | some m =>
      ⟨⟨200, .obj [("success", .bool true), ("member", memberOutFull m)]⟩,
        s, [.userFindById i]⟩

/-- Summary record produced by populate(teamMembers, name email
githubUsername): unresolvable ids are dropped. -/
def memberSummary (m : Member) : JVal :=
  .obj [("_id", .num m._id), ("name", .str m.name), ("email", .str m.email),
        ("githubUsername", .str m.githubUsername)]

/-- Resolve a list of member ids to their populated summaries. -/
def populateTeam (users : List Member) (ids : List Nat) : JVal :=
  .arr (ids.filterMap (fun i => (findUserById users i).map memberSummary))

/-- Wire record for one project in the GET / listing and GET /:id. -/
def projectOutFull (users : List Member) (p : Project) : JVal :=
  .obj [("_id", .num p._id), ("projectName", .str p.projectName),
        ("description", .str p.description), ("githubRepo", .str p.githubRepo),
        ("teamMembers", populateTeam users p.teamMembers),
        ("status", .str p.status), ("createdAt", .num p.createdAt),
        ("updatedAt", .num p.updatedAt)]

/-- Wire record for the POST / response (createdAt, no updatedAt). -/
def projectOutCreated (users : List Member) (p : Project) : JVal :=
  .obj [("_id", .num p._id), ("projectName", .str p.projectName),
        ("description", .str p.description), ("githubRepo", .str p.githubRepo),
        ("teamMembers", populateTeam users p.teamMembers),
        ("status", .str p.status), ("createdAt", .num p.createdAt)]

/-- Wire record for the PUT /:id response (updatedAt, no createdAt). -/
def projectOutUpdated (users : List Member) (p : Project) : JVal :=
  .obj [("_id", .num p._id), ("projectName", .str p.projectName),
        ("description", .str p.description), ("githubRepo", .str p.githubRepo),
        ("teamMembers", populateTeam users p.teamMembers),
        ("status", .str p.status), ("updatedAt", .num p.updatedAt)]

/-- The count of users matched by User.find with an id-in filter, checked
against the number of requested ids. -/
def matchedMembers (users : List Member) (ids : List Nat) : List Member :=
  users.filter (fun u => u._id ∈ ids)

/-- GET / on the project router: list all projects. -/
def listProjectsHandler (role : Option String) (s : Store) : Outcome :=
  if role ≠ some "admin" then ⟨accessDenied, s, []⟩
  else
    ⟨⟨200, .obj [("success", .bool true),
        ("projects", .arr ((sortDescBy Project.createdAt s.projects).map
          (projectOutFull s.users)))]⟩,
      s, [.projectFind]⟩

/-- Shared tail of POST / on the project router once the team check has
passed: build the document with the defaults of src/unnamed/part_000 lines
127 to 133, validate against the schema and save. -/
def finishProjectCreate (p : ProjectPayload) (newId now : Nat) (s : Store)
    (ops : List StoreOp) : Outcome :=
  let pr : Project :=
    { _id := newId
      projectName := p.projectName.getD ""
      description := p.description.getD ""
      githubRepo := p.githubRepo.getD ""
      teamMembers := p.teamMembers.getD []
      status := strOr p.status "active"
      createdAt := now
      updatedAt := now }
  if projectDocValid pr then
    ⟨⟨200, .obj [("success", .bool true),
        ("message", .str "Project created successfully"),
        ("project", projectOutCreated s.users pr)]⟩,
      ⟨s.users, s.projects ++ [pr]⟩,
      ops ++ [.projectSave pr, .userFindIn pr.teamMembers]⟩
  else
    ⟨⟨500, errBody "Failed to create project"⟩, s, ops⟩

/-- POST / on the project router: create a project. -/
def createProjectHandler (role : Option String) (p : ProjectPayload)
    (newId now : Nat) (s : Store) : Outcome :=
  if role ≠ some "admin" then ⟨accessDenied, s, []⟩
  else if !(truthy p.projectName && truthy p.githubRepo) then
    ⟨⟨400, errBody "Project name and GitHub repository are required"⟩, s, []⟩
  else
    match p.teamMembers with
    | some tm =>
      if tm.length > 0 then
        if (matchedMembers s.users tm).length ≠ tm.length then
          ⟨⟨400, errBody "One or more team members not found"⟩, s,
            [.userFindIn tm]⟩
        else finishProjectCreate p newId now s [.userFindIn tm]
      else finishProjectCreate p newId now s []
    | none => finishProjectCreate p newId now s []

/-- The field-update block of PUT /:id on the project router
(src/unnamed/part_000 lines 200 to 205): truthiness for projectName,
githubRepo, status; presence for description and teamMembers.  The
pre-save hook of the schema refreshes updatedAt. -/
def applyProjectUpdate (pr : Project) (p : ProjectPayload) (now : Nat) : Project :=
  { pr with
    projectName := strOr p.projectName pr.projectName
    description := p.description.getD pr.description
    githubRepo := strOr p.githubRepo pr.githubRepo
    teamMembers := p.teamMembers.getD pr.teamMembers
    status := strOr p.status pr.status
    updatedAt := now }

/-- Shared tail of PUT /:id on the project router after the team check:
apply the field updates, validate and save. -/
def finishProjectUpdate (pr : Project) (p : ProjectPayload) (now : Nat)
    (s : Store) (ops : List StoreOp) : Outcome :=
  let pr2 := applyProjectUpdate pr p now
  if projectDocValid pr2 then
    ⟨⟨200, .obj [("success", .bool true),
        ("message", .str "Project updated successfully"),
        ("project", projectOutUpdated s.users pr2)]⟩,
      ⟨s.users, saveProject s.projects pr2⟩,
      ops ++ [.projectSave pr2, .userFindIn pr2.teamMembers]⟩
  else
    ⟨⟨500, errBody "Failed to update project"⟩, s, ops⟩

/-- PUT /:id on the project router: update a project. -/
def updateProjectHandler (role : Option String) (i : Nat) (p : ProjectPayload)
    (now : Nat) (s : Store) : Outcome :=
  if role ≠ some "admin" then ⟨accessDenied, s, []⟩
  else
    match findProjectById s.projects i with
    | none => ⟨⟨404, errBody "Project not found"⟩, s, [.projectFindById i]⟩
    | some pr =>
      match p.teamMembers with
      | some tm =>
        if tm.length > 0 then
          if (matchedMembers s.users tm).length ≠ tm.length then
            ⟨⟨400, errBody "One or more team members not found"⟩, s,
              [.projectFindById i, .userFindIn tm]⟩
          else finishProjectUpdate pr p now s [.projectFindById i, .userFindIn tm]
        else finishProjectUpdate pr p now s [.projectFindById i]
      | none => finishProjectUpdate pr p now s [.projectFindById i]

/-- DELETE /:id on the project router: delete a project. -/
def deleteProjectHandler (role : Option String) (i : Nat) (s : Store) : Outcome :=
  if role ≠ some "admin" then ⟨accessDenied, s, []⟩
  else
    match findProjectById s.projects i with
    | none => ⟨⟨404, errBody "Project not found"⟩, s, [.projectFindById i]⟩
    | some _ =>
      ⟨⟨200, .obj [("success", .bool true),
          ("message", .str "Project deleted successfully")]⟩,
        ⟨s.users, s.projects.filter (fun q => q._id ≠ i)⟩,
        [.projectFindById i, .projectDelete i]⟩

/-- GET /:id on the project router: fetch one project. -/
def getProjectHandler (role : Option String) (i : Nat) (s : Store) : Outcome :=
  if role ≠ some "admin" then ⟨accessDenied, s, []⟩
  else
    match findProjectById s.projects i with
    | none => ⟨⟨404, errBody "Project not found"⟩, s, [.projectFindById i]⟩
    | some pr =>
      ⟨⟨200, .obj [("success", .bool true),
          ("project", projectOutFull s.users pr)]⟩,
        s, [.projectFindById i]⟩

/-- GET / on the recommendations router (end of src/team.js): a static
array, returned as the body with no wrapper. -/
def recsHandler : Response :=
  ⟨200, .arr [
    .obj [("id", .num 1), ("title", .str "GitHub Projects Integration"),
          ("description", .str "Enable board view to better track lagging tasks."),
          ("category", .str "Platform")],
    .obj [("id", .num 2), ("title", .str "Pair Programming Session"),
          ("description", .str "Amit Singh is lagging; schedule a pair coding session."),
          ("category", .str "Feedback")],
    .obj [("id", .num 3), ("title", .str "Strict PR Guidelines"),
          ("description", .str "Implement smaller PRs to reduce code review delay."),
          ("category", .str "Workflow")],
    .obj [("id", .num 4), ("title", .str "Daily Standup Sync"),
          ("description", .str "Improve communication for contributors with high delays."),
          ("category", .str "Workflow")]]⟩

/-! ## Claims -/

/-- C1: for every member or project operation (list, create, get, update,
delete), if the claimed role is any string other than the literal admin,
or the role header is absent, the operation returns the 403 Forbidden
response with success false, the store is untouched and no store
operation is performed. -/
theorem c1_non_admin_forbidden_no_store_access (role : Option String)
    (h : role ≠ some "admin") (i newId now : Nat) (mp : MemberPayload)
    (pp : ProjectPayload) (s : Store) :
    accessDenied = ⟨403, .obj [("success", .bool false),
      ("error", .str "Access denied. Admin only.")]⟩ ∧
    listMembersHandler role s = ⟨accessDenied, s, []⟩ ∧
    createMemberHandler role mp newId now s = ⟨accessDenied, s, []⟩ ∧
    getMemberHandler role i s = ⟨accessDenied, s, []⟩ ∧
    updateMemberHandler role i mp s = ⟨accessDenied, s, []⟩ ∧
    deleteMemberHandler role i s = ⟨accessDenied, s, []⟩ ∧
    listProjectsHandler role s = ⟨accessDenied, s, []⟩ ∧
    createProjectHandler role pp newId now s = ⟨accessDenied, s, []⟩ ∧
    getProjectHandler role i s = ⟨accessDenied, s, []⟩ ∧
    updateProjectHandler role i pp now s = ⟨accessDenied, s, []⟩ ∧
    deleteProjectHandler role i s = ⟨accessDenied, s, []⟩ := by
  refine ⟨rfl, ?_, ?_, ?_, ?_, ?_, ?_, ?_, ?_, ?_, ?_⟩ <;>
    · simp only [listMembersHandler, createMemberHandler, getMemberHandler,
        updateMemberHandler, deleteMemberHandler, listProjectsHandler,
        createProjectHandler, getProjectHandler, updateProjectHandler,
        deleteProjectHandler]
      rw [if_pos h]

/-- Witness for C1 at a concrete non-admin role and store. -/
theorem c1_witness :
    (some "user" : Option String) ≠ some "admin" ∧
    listMembersHandler (some "user") ⟨[], []⟩ = ⟨accessDenied, ⟨[], []⟩, []⟩ := by
  have h : (some "user" : Option String) ≠ some "admin" := by decide
  exact ⟨h, (c1_non_admin_forbidden_no_store_access (some "user") h 0 0 0
    ⟨none, none, none, none, none, none⟩ ⟨none, none, none, none, none⟩
    ⟨[], []⟩).2.1⟩

/-- Does a key-value pair carry success set to true. -/
def isSuccessTrueField : String × JVal → Bool
  | ("success", .bool true) => true
  | _ => false

/-- Is the body an object carrying a success true field. -/
def hasSuccessTrue : JVal → Bool
  | .obj fs => fs.any isSuccessTrueField
  | _ => false

/-- Is the body exactly a success false object with an error string. -/
def isErrBody : JVal → Bool
  | .obj [("success", .bool false), ("error", .str _)] => true
  | _ => false

/-- The wire contract of the member and project routes: a 200 body wraps
its payload with success true, any other status carries a success false
object with an error message. -/
def wireOk (r : Response) : Bool :=
  if r.status = 200 then hasSuccessTrue r.body else isErrBody r.body

/-- C7 counterexample: the recommendations endpoint responds 200 but its
body is a bare array, not an object wrapping the payload with success
true, so not every success body is wrapped. -/
theorem c7_counterexample_recommendations_body_not_wrapped :
    recsHandler.status = 200 ∧ hasSuccessTrue recsHandler.body = false :=
  ⟨rfl, rfl⟩

/-- C7 amended: every success response body from the member and project
endpoints wraps the payload with success true, and every failure body has
the form success false plus an error message; the recommendations
endpoint instead responds 200 with a bare array carrying no success
wrapper. -/
theorem c7_amended_response_bodies (role : Option String) (i newId now : Nat)
    (mp : MemberPayload) (pp : ProjectPayload) (s : Store) :
    wireOk (listMembersHandler role s).resp = true ∧
    wireOk (createMemberHandler role mp newId now s).resp = true ∧
    wireOk (getMemberHandler role i s).resp = true ∧
    wireOk (updateMemberHandler role i mp s).resp = true ∧
    wireOk (deleteMemberHandler role i s).resp = true ∧
    wireOk (listProjectsHandler role s).resp = true ∧
    wireOk (createProjectHandler role pp newId now s).resp = true ∧
    wireOk (getProjectHandler role i s).resp = true ∧
    wireOk (updateProjectHandler role i pp now s).resp = true ∧
    wireOk (deleteProjectHandler role i s).resp = true ∧
    recsHandler.status = 200 ∧
    (∃ xs, recsHandler.body = JVal.arr xs) ∧
    hasSuccessTrue recsHandler.body = false := by
  refine ⟨?_, ?_, ?_, ?_, ?_, ?_, ?_, ?_, ?_, ?_, rfl, ⟨_, rfl⟩, rfl⟩ <;>
  · simp only [listMembersHandler, createMemberHandler, getMemberHandler,
      updateMemberHandler, deleteMemberHandler, listProjectsHandler,
      createProjectHandler, getProjectHandler, updateProjectHandler,
      deleteProjectHandler, finishMemberUpdate, finishProjectCreate,
      finishProjectUpdate]
    repeat' split
    all_goals rfl

/-- The duplicate-email lookup with an absent email matches no stored
member, every stored email being a string. -/
theorem findByEmail_absent (users : List Member) : findByEmail users none = none := by
  simp [findByEmail]

/-- A member returned by findById carries the looked-up id. -/
theorem findUserById_id (users : List Member) (i : Nat) (m : Member)
    (hm : findUserById users i = some m) : m._id = i := by
  have h := List.find?_some hm
  exact of_decide_eq_true h

/-- Looking up the id of a just-saved member returns the saved document. -/
theorem findUserById_saveUser (users : List Member) (i : Nat) (m m2 : Member)
    (hm : findUserById users i = some m) (hid : m2._id = m._id) :
    findUserById (saveUser users m2) i = some m2 := by
  induction users with
  | nil => simp [findUserById] at hm
  | cons u us ih =>
    by_cases h : u._id = i
    · have hu : m = u := by
        have : some u = some m := by
          simpa [findUserById, List.find?_cons_of_pos, h] using hm
        exact (Option.some.injEq _ _ ▸ this).symm
      have hm2 : m2._id = u._id := by rw [hid, hu]
      simp [saveUser, findUserById, hm2, List.find?_cons_of_pos, h, hm2.trans h]
    · have hm' : findUserById us i = some m := by
        simpa [findUserById, List.find?_cons_of_neg, h] using hm
      have hmid : m._id = i := findUserById_id us i m hm'
      have hneq : ¬ u._id = m2._id := by
        rw [hid, hmid]; exact h
      have ihm := ih hm'
      have hhead : saveUser (u :: us) m2 = u :: saveUser us m2 := by
        simp [saveUser, if_neg hneq]
      rw [hhead]
      unfold findUserById
      rw [List.find?_cons_of_neg _ (by simpa using h)]
      exact ihm

/-- C5: for every existing member, updateMember with a payload containing
only status inactive succeeds, the stored member afterwards has status
inactive, and its name, email and role equal their prior stored values. -/
theorem c5_status_only_update_frame (s : Store) (i : Nat) (m : Member)
    (hm : findUserById s.users i = some m) (hv : memberDocValid m = true) :
    (updateMemberHandler (some "admin") i
        ⟨none, none, none, none, none, some "inactive"⟩ s).resp.status = 200 ∧
    findUserById (updateMemberHandler (some "admin") i
        ⟨none, none, none, none, none, some "inactive"⟩ s).store.users i
      = some { m with status := "inactive" } ∧
    ({ m with status := "inactive" } : Member).name = m.name ∧
    ({ m with status := "inactive" } : Member).email = m.email ∧
    ({ m with status := "inactive" } : Member).role = m.role ∧
    ({ m with status := "inactive" } : Member).status = "inactive" := by
  have happ : applyMemberUpdate m ⟨none, none, none, none, none, some "inactive"⟩
      = { m with status := "inactive" } := by
    simp [applyMemberUpdate, strOr]
  have hv' : (¬ m.name = "" ∧ ¬ m.email = "") ∧
      (m.status = "active" ∨ m.status = "inactive") := by
    simpa [memberDocValid] using hv
  have hv2 : memberDocValid { m with status := "inactive" } = true := by
    simp [memberDocValid, hv'.1.1, hv'.1.2]
  have hout : updateMemberHandler (some "admin") i
      ⟨none, none, none, none, none, some "inactive"⟩ s
      = ⟨⟨200, .obj [("success", .bool true),
          ("message", .str "Team member updated successfully"),
          ("member", memberOut { m with status := "inactive" })]⟩,
        ⟨saveUser s.users { m with status := "inactive" }, s.projects⟩,
        [.userFindById i, .userFindOne none,
          .userSave { m with status := "inactive" }]⟩ := by
    simp [updateMemberHandler, hm, findByEmail_absent, finishMemberUpdate,
      happ, hv2]
  refine ⟨by rw [hout], ?_, rfl, rfl, rfl, rfl⟩
  rw [hout]
  exact findUserById_saveUser s.users i m _ hm rfl

/-- Witness for C5 at a concrete one-member store. -/
theorem c5_witness :
    findUserById [⟨7, "Ana", "ana@x.io", "contributor", "", [], "active", 3, "pw"⟩] 7
      = some ⟨7, "Ana", "ana@x.io", "contributor", "", [], "active", 3, "pw"⟩ ∧
    (updateMemberHandler (some "admin") 7
        ⟨none, none, none, none, none, some "inactive"⟩
        ⟨[⟨7, "Ana", "ana@x.io", "contributor", "", [], "active", 3, "pw"⟩], []⟩).resp.status
      = 200 := by
  have h := c5_status_only_update_frame
    ⟨[⟨7, "Ana", "ana@x.io", "contributor", "", [], "active", 3, "pw"⟩], []⟩ 7
    ⟨7, "Ana", "ana@x.io", "contributor", "", [], "active", 3, "pw"⟩
    (by decide) (by decide)
  exact ⟨by decide, h.1⟩

/-- C8: updateMember runs the duplicate-email store lookup whenever the
payload email value differs from the stored email, including when the
email field is absent from the payload, and returns the 400 conflict
response whenever that lookup matches any document. -/
theorem c8_update_email_lookup_always_runs (s : Store) (i : Nat) (m : Member)
    (mp : MemberPayload) (hm : findUserById s.users i = some m)
    (hne : mp.email ≠ some m.email) :
    StoreOp.userFindOne mp.email ∈ (updateMemberHandler (some "admin") i mp s).ops ∧
    (∀ u, findByEmail s.users mp.email = some u →
      (updateMemberHandler (some "admin") i mp s).resp
        = ⟨400, errBody "Email already in use by another user"⟩) := by
  have hstep : updateMemberHandler (some "admin") i mp s
      = match findByEmail s.users mp.email with
        | some _ => ⟨⟨400, errBody "Email already in use by another user"⟩, s,
            [.userFindById i, .userFindOne mp.email]⟩
        | none => finishMemberUpdate m mp s [.userFindById i, .userFindOne mp.email] := by
    simp [updateMemberHandler, hm, hne]
  cases hfe : findByEmail s.users mp.email with
  | none =>
    rw [hstep, hfe]
    refine ⟨?_, ?_⟩
    · simp only [finishMemberUpdate]
      split <;> simp
    · intro u hu
      simp at hu
  | some u =>
    rw [hstep, hfe]
    exact ⟨by simp, fun v hv => rfl⟩

/-- Witness for C8: an update whose payload omits email still performs
the email lookup with an absent value. -/
theorem c8_witness :
    findUserById [⟨7, "Ana", "ana@x.io", "contributor", "", [], "active", 3, "pw"⟩] 7
      = some ⟨7, "Ana", "ana@x.io", "contributor", "", [], "active", 3, "pw"⟩ ∧
    (none : Option String) ≠ some "ana@x.io" ∧
    StoreOp.userFindOne none ∈ (updateMemberHandler (some "admin") 7
      ⟨none, none, none, none, none, none⟩
      ⟨[⟨7, "Ana", "ana@x.io", "contributor", "", [], "active", 3, "pw"⟩], []⟩).ops := by
  have h := c8_update_email_lookup_always_runs
    ⟨[⟨7, "Ana", "ana@x.io", "contributor", "", [], "active", 3, "pw"⟩], []⟩ 7
    ⟨7, "Ana", "ana@x.io", "contributor", "", [], "active", 3, "pw"⟩
    ⟨none, none, none, none, none, none⟩ (by decide) (by decide)
  exact ⟨by decide, by decide, h.1⟩

/-- A falsy optional string never overrides the fallback. -/
theorem strOr_falsy (x : Option String) (d : String) (h : truthy x = false) :
    strOr x d = d := by
  cases x with
  | none => rfl
  | some s =>
    simp [truthy] at h
    simp [strOr, h]

/-- An absent optional string takes the fallback. -/
theorem strOr_none (d : String) : strOr (none : Option String) d = d := rfl

/-- C9 counterexample: a truthy caller-supplied status outside the
schema enum is not stored verbatim: the save-time schema validation
rejects it as the Internal 500 and no member is persisted. -/
theorem c9_counterexample_status_outside_enum :
    createMemberHandler (some "admin")
        ⟨some "Bo", some "bo@x.io", some "admin", none, some [4], some "bogus"⟩
        1 2 ⟨[], []⟩
      = ⟨⟨500, errBody "Failed to add team member"⟩, ⟨[], []⟩,
          [.userFindOne (some "bo@x.io")]⟩ := rfl

/-- C9 amended: createMember stores any truthy caller-supplied role and
assignedProjects verbatim, and a truthy supplied status verbatim when it
lies in the schema enum active, inactive — in particular a payload with
role admin creates a member whose role is admin; a truthy status outside
the enum is rejected by the schema validation of save as the Internal
500 with nothing persisted; and the defaults contributor, active and the
empty assignment list apply exactly when the corresponding field is
absent or falsy. -/
theorem c9_amended_verbatim_within_schema (s : Store) (nm em r st : String)
    (xs : List Nat) (newId now : Nat)
    (hnm : nm ≠ "") (hem : em ≠ "") (hr : r ≠ "")
    (hst : st = "active" ∨ st = "inactive")
    (hdup : findByEmail s.users (some em) = none) :
    (createMemberHandler (some "admin")
        ⟨some nm, some em, some r, none, some xs, some st⟩ newId now s).store.users
      = s.users ++ [⟨newId, nm, em, r, "", xs, st, now, "password123"⟩] ∧
    (∀ st2 : String, st2 ≠ "" → st2 ≠ "active" → st2 ≠ "inactive" →
      createMemberHandler (some "admin")
          ⟨some nm, some em, some r, none, some xs, some st2⟩ newId now s
        = ⟨⟨500, errBody "Failed to add team member"⟩, s,
            [.userFindOne (some em)]⟩) ∧
    (∀ ro sto : Option String, truthy ro = false → truthy sto = false →
      (createMemberHandler (some "admin")
          ⟨some nm, some em, ro, none, none, sto⟩ newId now s).store.users
        = s.users ++ [⟨newId, nm, em, "contributor", "", [], "active", now,
            "password123"⟩]) := by
  refine ⟨?_, ?_, ?_⟩
  · rcases hst with h | h <;> subst h <;>
      simp [createMemberHandler, hdup, memberDocValid, strOr, hnm, hem, hr]
  · intro st2 h0 h1 h2
    simp [createMemberHandler, hdup, memberDocValid, strOr, h0, h1, h2]
  · intro ro sto hro hsto
    have h1 : strOr ro "contributor" = "contributor" := strOr_falsy ro _ hro
    have h2 : strOr sto "active" = "active" := strOr_falsy sto _ hsto
    simp [createMemberHandler, hdup, memberDocValid, hnm, hem, h1, h2, strOr_none]

/-- Witness for C9 amended: role admin and status inactive are stored
verbatim, status bogus is rejected as a 500, and an absent role defaults
to contributor. -/
theorem c9_amended_witness :
    (createMemberHandler (some "admin")
        ⟨some "Bo", some "bo@x.io", some "admin", none, some [4], some "inactive"⟩
        1 2 ⟨[], []⟩).store.users
      = [⟨1, "Bo", "bo@x.io", "admin", "", [4], "inactive", 2, "password123"⟩] ∧
    (createMemberHandler (some "admin")
        ⟨some "Bo", some "bo@x.io", some "admin", none, some [4], some "bogus"⟩
        1 2 ⟨[], []⟩).resp.status = 500 ∧
    (createMemberHandler (some "admin")
        ⟨some "Bo", some "bo@x.io", none, none, none, none⟩ 1 2 ⟨[], []⟩).store.users
      = [⟨1, "Bo", "bo@x.io", "contributor", "", [], "active", 2, "password123"⟩] := by
  have h := c9_amended_verbatim_within_schema ⟨[], []⟩ "Bo" "bo@x.io" "admin"
    "inactive" [4] 1 2 (by decide) (by decide) (by decide) (Or.inr rfl) (by decide)
  refine ⟨h.1, ?_, h.2.2 none none (by decide) (by decide)⟩
  rw [h.2.1 "bogus" (by decide) (by decide) (by decide)]

/-- C4 counterexample: an admin createMember call whose payload is
missing name is not rejected by any explicit check; it falls through to
the schema validation of save and comes back as the generic Internal 500
failure, contradicting the claim that a domain-specific, explicitly
detected error is returned. -/
theorem c4_counterexample_missing_name_internal_500 :
    createMemberHandler (some "admin") ⟨none, some "a@x.io", none, none, none, none⟩
        1 0 ⟨[], []⟩
      = ⟨⟨500, errBody "Failed to add team member"⟩, ⟨[], []⟩,
          [.userFindOne (some "a@x.io")]⟩ := rfl

/-- C4 amended: a createMember call whose payload is missing name or
email, and whose email value matches no stored member, fails with the
Internal 500 response produced by the schema validation of save rather
than an explicitly detected domain-specific error, and no member
document is created. -/
theorem c4_amended_missing_fields_internal (s : Store) (mp : MemberPayload)
    (newId now : Nat) (hmiss : mp.name = none ∨ mp.email = none)
    (hdup : findByEmail s.users mp.email = none) :
    createMemberHandler (some "admin") mp newId now s
      = ⟨⟨500, errBody "Failed to add team member"⟩, s, [.userFindOne mp.email]⟩ := by
  rcases hmiss with h | h
  · simp [createMemberHandler, hdup, memberDocValid, h]
  · rw [h] at hdup
    simp [createMemberHandler, hdup, memberDocValid, h]

/-- Witness for C4 amended, at a concrete payload missing the name. -/
theorem c4_amended_witness :
    ((⟨none, some "a@x.io", none, none, none, none⟩ : MemberPayload).name = none ∨
      (⟨none, some "a@x.io", none, none, none, none⟩ : MemberPayload).email = none) ∧
    (createMemberHandler (some "admin") ⟨none, some "a@x.io", none, none, none, none⟩
        1 0 ⟨[], []⟩).resp.status = 500 := by
  have h := c4_amended_missing_fields_internal ⟨[], []⟩
    ⟨none, some "a@x.io", none, none, none, none⟩ 1 0 (Or.inl rfl) (by decide)
  exact ⟨Or.inl rfl, by rw [h]⟩

/-- Does a store operation read or write the Project collection. -/
def StoreOp.touchesProjects : StoreOp → Bool
  | .projectFind => true
  | .projectFindById _ => true
  | .projectSave _ => true
  | .projectDelete _ => true
  | _ => false

/-- C10: a Member assignedProjects list is never referentially validated:
createMember and updateMember persist any supplied list verbatim and
perform no operation against the Project collection while doing so. -/
theorem c10_assigned_projects_not_validated (s : Store) (xs : List Nat)
    (nm em : String) (newId now i : Nat) (m : Member)
    (hnm : nm ≠ "") (hem : em ≠ "")
    (hdup : findByEmail s.users (some em) = none)
    (hm : findUserById s.users i = some m) (hv : memberDocValid m = true) :
    (createMemberHandler (some "admin") ⟨some nm, some em, none, none, some xs, none⟩
        newId now s).store.users
      = s.users ++ [⟨newId, nm, em, "contributor", "", xs, "active", now,
          "password123"⟩] ∧
    (∀ op ∈ (createMemberHandler (some "admin")
        ⟨some nm, some em, none, none, some xs, none⟩ newId now s).ops,
      op.touchesProjects = false) ∧
    (updateMemberHandler (some "admin") i
        ⟨none, none, none, none, some xs, none⟩ s).resp.status = 200 ∧
    findUserById (updateMemberHandler (some "admin") i
        ⟨none, none, none, none, some xs, none⟩ s).store.users i
      = some { m with assignedProjects := xs } ∧
    (∀ op ∈ (updateMemberHandler (some "admin") i
        ⟨none, none, none, none, some xs, none⟩ s).ops,
      op.touchesProjects = false) := by
  have hcreate : createMemberHandler (some "admin")
      ⟨some nm, some em, none, none, some xs, none⟩ newId now s
      = ⟨⟨200, .obj [("success", .bool true),
          ("message", .str "Team member added successfully"),
          ("member", memberOut ⟨newId, nm, em, "contributor", "", xs, "active",
            now, "password123"⟩)]⟩,
        ⟨s.users ++ [⟨newId, nm, em, "contributor", "", xs, "active", now,
          "password123"⟩], s.projects⟩,
        [.userFindOne (some em), .userSave ⟨newId, nm, em, "contributor", "",
          xs, "active", now, "password123"⟩]⟩ := by
    simp [createMemberHandler, hdup, memberDocValid, strOr, hnm, hem]
  have happ : applyMemberUpdate m ⟨none, none, none, none, some xs, none⟩
      = { m with assignedProjects := xs } := by
    simp [applyMemberUpdate, strOr]
  have hv2 : memberDocValid { m with assignedProjects := xs } = true := by
    simpa [memberDocValid] using hv
  have hupd : updateMemberHandler (some "admin") i
      ⟨none, none, none, none, some xs, none⟩ s
      = ⟨⟨200, .obj [("success", .bool true),
          ("message", .str "Team member updated successfully"),
          ("member", memberOut { m with assignedProjects := xs })]⟩,
        ⟨saveUser s.users { m with assignedProjects := xs }, s.projects⟩,
        [.userFindById i, .userFindOne none,
          .userSave { m with assignedProjects := xs }]⟩ := by
    simp [updateMemberHandler, hm, findByEmail_absent, finishMemberUpdate,
      happ, hv2]
  refine ⟨by rw [hcreate], ?_, by rw [hupd], ?_, ?_⟩
  · rw [hcreate]
    simp [StoreOp.touchesProjects]
  · rw [hupd]
    exact findUserById_saveUser s.users i m _ hm rfl
  · rw [hupd]
    simp [StoreOp.touchesProjects]

/-- Witness for C10 at a concrete store: an assignedProjects id that
resolves to no Project is persisted untouched. -/
theorem c10_witness :
    (createMemberHandler (some "admin")
        ⟨some "Bo", some "bo@x.io", none, none, some [99], none⟩ 1 2
        ⟨[⟨7, "Ana", "ana@x.io", "contributor", "", [], "active", 3, "pw"⟩], []⟩).store.users
      = [⟨7, "Ana", "ana@x.io", "contributor", "", [], "active", 3, "pw"⟩,
         ⟨1, "Bo", "bo@x.io", "contributor", "", [99], "active", 2, "password123"⟩] ∧
    findUserById (updateMemberHandler (some "admin") 7
        ⟨none, none, none, none, some [99], none⟩
        ⟨[⟨7, "Ana", "ana@x.io", "contributor", "", [], "active", 3, "pw"⟩], []⟩).store.users 7
      = some ⟨7, "Ana", "ana@x.io", "contributor", "", [99], "active", 3, "pw"⟩ := by
  have h := c10_assigned_projects_not_validated
    ⟨[⟨7, "Ana", "ana@x.io", "contributor", "", [], "active", 3, "pw"⟩], []⟩
    [99] "Bo" "bo@x.io" 1 2 7
    ⟨7, "Ana", "ana@x.io", "contributor", "", [], "active", 3, "pw"⟩
    (by decide) (by decide) (by decide) (by decide) (by decide)
  exact ⟨h.1, h.2.2.2.1⟩

/-- A project returned by findById carries the looked-up id. -/
theorem findProjectById_id (projects : List Project) (i : Nat) (p : Project)
    (hp : findProjectById projects i = some p) : p._id = i := by
  have h := List.find?_some hp
  exact of_decide_eq_true h

/-- Looking up the id of a just-saved project returns the saved document. -/
theorem findProjectById_saveProject (projects : List Project) (i : Nat)
    (p p2 : Project) (hp : findProjectById projects i = some p)
    (hid : p2._id = p._id) :
    findProjectById (saveProject projects p2) i = some p2 := by
  induction projects with
  | nil => simp [findProjectById] at hp
  | cons q qs ih =>
    by_cases h : q._id = i
    · have hq : p = q := by
        have : some q = some p := by
          simpa [findProjectById, List.find?_cons_of_pos, h] using hp
        exact (Option.some.injEq _ _ ▸ this).symm
      have hp2 : p2._id = q._id := by rw [hid, hq]
      simp [saveProject, findProjectById, hp2, List.find?_cons_of_pos, h,
        hp2.trans h]
    · have hp' : findProjectById qs i = some p := by
        simpa [findProjectById, List.find?_cons_of_neg, h] using hp
      have hpid : p._id = i := findProjectById_id qs i p hp'
      have hneq : ¬ q._id = p2._id := by
        rw [hid, hpid]; exact h
      have ihp := ih hp'
      have hhead : saveProject (q :: qs) p2 = q :: saveProject qs p2 := by
        simp [saveProject, if_neg hneq]
      rw [hhead]
      unfold findProjectById
      rw [List.find?_cons_of_neg _ (by simpa using h)]
      exact ihp

/-- C6: partial-update field semantics are asymmetric: on updateProject a
supplied empty description overwrites; on updateMember and updateProject
the githubUsername, assignedProjects and teamMembers fields are
overwritten exactly when present, including by empty values; while a
falsy supplied name, role, status, projectName or githubRepo is treated
as not supplied and the stored value is retained. -/
theorem c6_partial_update_asymmetry (s : Store) (i now : Nat) (m : Member)
    (pr : Project) (hm : findUserById s.users i = some m)
    (hv : memberDocValid m = true)
    (hp : findProjectById s.projects i = some pr)
    (hvp : projectDocValid pr = true) :
    (∀ g : String, findUserById (updateMemberHandler (some "admin") i
        ⟨none, none, none, some g, none, none⟩ s).store.users i
      = some { m with githubUsername := g }) ∧
    (∀ xs : List Nat, findUserById (updateMemberHandler (some "admin") i
        ⟨none, none, none, none, some xs, none⟩ s).store.users i
      = some { m with assignedProjects := xs }) ∧
    findUserById (updateMemberHandler (some "admin") i
        ⟨some "", none, some "", none, none, some ""⟩ s).store.users i = some m ∧
    findProjectById (updateProjectHandler (some "admin") i
        ⟨none, some "", none, none, none⟩ now s).store.projects i
      = some { pr with description := "", updatedAt := now } ∧
    findProjectById (updateProjectHandler (some "admin") i
        ⟨none, none, none, some [], none⟩ now s).store.projects i
      = some { pr with teamMembers := [], updatedAt := now } ∧
    findProjectById (updateProjectHandler (some "admin") i
        ⟨some "", none, some "", none, some ""⟩ now s).store.projects i
      = some { pr with updatedAt := now } := by
  refine ⟨?_, ?_, ?_, ?_, ?_, ?_⟩
  · intro g
    have happ : applyMemberUpdate m ⟨none, none, none, some g, none, none⟩
        = { m with githubUsername := g } := by
      simp [applyMemberUpdate, strOr]
    have hv2 : memberDocValid { m with githubUsername := g } = true := by
      simpa [memberDocValid] using hv
    have hout : (updateMemberHandler (some "admin") i
        ⟨none, none, none, some g, none, none⟩ s).store.users
        = saveUser s.users { m with githubUsername := g } := by
      simp [updateMemberHandler, hm, findByEmail_absent, finishMemberUpdate,
        happ, hv2]
    rw [hout]
    exact findUserById_saveUser s.users i m _ hm rfl
  · intro xs
    have happ : applyMemberUpdate m ⟨none, none, none, none, some xs, none⟩
        = { m with assignedProjects := xs } := by
      simp [applyMemberUpdate, strOr]
    have hv2 : memberDocValid { m with assignedProjects := xs } = true := by
      simpa [memberDocValid] using hv
    have hout : (updateMemberHandler (some "admin") i
        ⟨none, none, none, none, some xs, none⟩ s).store.users
        = saveUser s.users { m with assignedProjects := xs } := by
      simp [updateMemberHandler, hm, findByEmail_absent, finishMemberUpdate,
        happ, hv2]
    rw [hout]
    exact findUserById_saveUser s.users i m _ hm rfl
  · have happ : applyMemberUpdate m ⟨some "", none, some "", none, none, some ""⟩
        = m := by
      simp [applyMemberUpdate, strOr]
    have hout : (updateMemberHandler (some "admin") i
        ⟨some "", none, some "", none, none, some ""⟩ s).store.users
        = saveUser s.users m := by
      simp [updateMemberHandler, hm, findByEmail_absent, finishMemberUpdate,
        happ, hv]
    rw [hout]
    exact findUserById_saveUser s.users i m _ hm rfl
  · have happ : applyProjectUpdate pr ⟨none, some "", none, none, none⟩ now
        = { pr with description := "", updatedAt := now } := by
      simp [applyProjectUpdate, strOr]
    have hv2 : projectDocValid { pr with description := "", updatedAt := now }
        = true := by
      simpa [projectDocValid] using hvp
    have hout : (updateProjectHandler (some "admin") i
        ⟨none, some "", none, none, none⟩ now s).store.projects
        = saveProject s.projects { pr with description := "", updatedAt := now } := by
      simp [updateProjectHandler, hp, finishProjectUpdate, happ, hv2]
    rw [hout]
    exact findProjectById_saveProject s.projects i pr _ hp rfl
  · have happ : applyProjectUpdate pr ⟨none, none, none, some [], none⟩ now
        = { pr with teamMembers := [], updatedAt := now } := by
      simp [applyProjectUpdate, strOr]
    have hv2 : projectDocValid { pr with teamMembers := [], updatedAt := now }
        = true := by
      simpa [projectDocValid] using hvp
    have hout : (updateProjectHandler (some "admin") i
        ⟨none, none, none, some [], none⟩ now s).store.projects
        = saveProject s.projects { pr with teamMembers := [], updatedAt := now } := by
      simp [updateProjectHandler, hp, finishProjectUpdate, happ, hv2]
    rw [hout]
    exact findProjectById_saveProject s.projects i pr _ hp rfl
  · have happ : applyProjectUpdate pr ⟨some "", none, some "", none, some ""⟩ now
        = { pr with updatedAt := now } := by
      simp [applyProjectUpdate, strOr]
    have hv2 : projectDocValid { pr with updatedAt := now } = true := by
      simpa [projectDocValid] using hvp
    have hout : (updateProjectHandler (some "admin") i
        ⟨some "", none, some "", none, some ""⟩ now s).store.projects
        = saveProject s.projects { pr with updatedAt := now } := by
      simp [updateProjectHandler, hp, finishProjectUpdate, happ, hv2]
    rw [hout]
    exact findProjectById_saveProject s.projects i pr _ hp rfl

/-- Witness for C6 at a concrete store holding one member and one
project, both with id 7. -/
theorem c6_witness :
    findUserById (updateMemberHandler (some "admin") 7
        ⟨none, none, none, some "", none, none⟩
        ⟨[⟨7, "Ana", "ana@x.io", "contributor", "gh", [], "active", 3, "pw"⟩],
         [⟨7, "P", "d", "r", [], "active", 1, 1⟩]⟩).store.users 7
      = some ⟨7, "Ana", "ana@x.io", "contributor", "", [], "active", 3, "pw"⟩ ∧
    findProjectById (updateProjectHandler (some "admin") 7
        ⟨none, some "", none, none, none⟩ 9
        ⟨[⟨7, "Ana", "ana@x.io", "contributor", "gh", [], "active", 3, "pw"⟩],
         [⟨7, "P", "d", "r", [], "active", 1, 1⟩]⟩).store.projects 7
      = some ⟨7, "P", "", "r", [], "active", 1, 9⟩ := by
  have h := c6_partial_update_asymmetry
    ⟨[⟨7, "Ana", "ana@x.io", "contributor", "gh", [], "active", 3, "pw"⟩],
     [⟨7, "P", "d", "r", [], "active", 1, 1⟩]⟩ 7 9
    ⟨7, "Ana", "ana@x.io", "contributor", "gh", [], "active", 3, "pw"⟩
    ⟨7, "P", "d", "r", [], "active", 1, 1⟩
    (by decide) (by decide) (by decide) (by decide)
  exact ⟨h.1 "", h.2.2.2.1⟩

/-- Counting matched members equals counting matched ids. -/
theorem length_filter_by_id (users : List Member) (tm : List Nat) :
    (matchedMembers users tm).length
      = ((users.map Member._id).filter (fun j => j ∈ tm)).length := by
  induction users with
  | nil => rfl
  | cons u us ih =>
    by_cases h : u._id ∈ tm <;>
      simp [matchedMembers, List.filter_cons, h, ih.symm]

/-- If the stored ids are distinct and some requested id resolves to no
member, the matched-member count falls short of the requested count. -/
theorem matchedMembers_length_lt (users : List Member) (tm : List Nat) (x : Nat)
    (hids : (users.map Member._id).Nodup) (hx : x ∈ tm)
    (hnx : ∀ u ∈ users, u._id ≠ x) :
    (matchedMembers users tm).length < tm.length := by
  have h1 : (matchedMembers users tm).length
      = ((users.map Member._id).filter (fun j => j ∈ tm)).length :=
    length_filter_by_id users tm
  have hnod : ((users.map Member._id).filter (fun j => j ∈ tm)).Nodup :=
    hids.filter _
  have hsub : ((users.map Member._id).filter (fun j => j ∈ tm)).toFinset
      ⊆ tm.toFinset.erase x := by
    intro j hj
    rw [List.mem_toFinset, List.mem_filter] at hj
    have hjtm : j ∈ tm := of_decide_eq_true hj.2
    have hjne : j ≠ x := by
      intro he
      subst he
      rcases List.mem_map.mp hj.1 with ⟨u, hu, hux⟩
      exact hnx u hu hux
    rw [Finset.mem_erase, List.mem_toFinset]
    exact ⟨hjne, hjtm⟩
  have hcardeq : ((users.map Member._id).filter (fun j => j ∈ tm)).toFinset.card
      = ((users.map Member._id).filter (fun j => j ∈ tm)).length :=
    List.toFinset_card_of_nodup hnod
  have hle := Finset.card_le_card hsub
  have herase : (tm.toFinset.erase x).card = tm.toFinset.card - 1 :=
    Finset.card_erase_of_mem (List.mem_toFinset.mpr hx)
  have hpos : 0 < tm.toFinset.card :=
    Finset.card_pos.mpr ⟨x, List.mem_toFinset.mpr hx⟩
  have htmle : tm.toFinset.card ≤ tm.length := List.toFinset_card_le tm
  omega

/-- C3: a createProject call whose non-empty teamMembers list holds an id
resolving to no stored member fails with the 400 BadRequest response —
the failure signal being the mismatch between the matched-member count
and the requested count — and no Project is persisted. -/
theorem c3_create_project_unresolved_member (s : Store) (p : ProjectPayload)
    (tm : List Nat) (x : Nat) (newId now : Nat)
    (hids : (s.users.map Member._id).Nodup)
    (hname : truthy p.projectName = true) (hrepo : truthy p.githubRepo = true)
    (htm : p.teamMembers = some tm) (hx : x ∈ tm)
    (hnx : ∀ u ∈ s.users, u._id ≠ x) :
    (matchedMembers s.users tm).length ≠ tm.length ∧
    createProjectHandler (some "admin") p newId now s
      = ⟨⟨400, errBody "One or more team members not found"⟩, s,
          [.userFindIn tm]⟩ := by
  have hlt := matchedMembers_length_lt s.users tm x hids hx hnx
  have hne : (matchedMembers s.users tm).length ≠ tm.length := Nat.ne_of_lt hlt
  refine ⟨hne, ?_⟩
  have hlen : 0 < tm.length := List.length_pos.mpr (List.ne_nil_of_mem hx)
  simp [createProjectHandler, hname, hrepo, htm, hlen, hne]

/-- Witness for C3: creating a project that references an unknown member
id fails and persists nothing. -/
theorem c3_witness :
    (99 : Nat) ∈ [99] ∧
    createProjectHandler (some "admin") ⟨some "X", none, some "r", some [99], none⟩
        1 2 ⟨[⟨7, "Ana", "ana@x.io", "contributor", "", [], "active", 3, "pw"⟩], []⟩
      = ⟨⟨400, errBody "One or more team members not found"⟩,
          ⟨[⟨7, "Ana", "ana@x.io", "contributor", "", [], "active", 3, "pw"⟩], []⟩,
          [.userFindIn [99]]⟩ := by
  have h := c3_create_project_unresolved_member
    ⟨[⟨7, "Ana", "ana@x.io", "contributor", "", [], "active", 3, "pw"⟩], []⟩
    ⟨some "X", none, some "r", some [99], none⟩ [99] 99 1 2
    (by decide) (by decide) (by decide) rfl (by decide) (by decide)
  exact ⟨by decide, h.2⟩

/-- The email-uniqueness invariant over the User collection. -/
def uniqueEmails (users : List Member) : Prop :=
  (users.map Member.email).Nodup

instance (users : List Member) : Decidable (uniqueEmails users) :=
  inferInstanceAs (Decidable ((users.map Member.email).Nodup))

/-- The number of stored members carrying a given email. -/
def countEmail (users : List Member) (e : String) : Nat :=
  (users.filter (fun u => u.email = e)).length

/-- The duplicate-email lookup misses exactly when no stored member
carries the email. -/
theorem findByEmail_some_none_iff (l : List Member) (e : String) :
    findByEmail l (some e) = none ↔ ∀ u ∈ l, e ≠ u.email := by
  simp [findByEmail, List.find?_eq_none]

/-- The duplicate-email lookup finds a freshly appended member. -/
theorem findByEmail_append_single (l : List Member) (m : Member) (e : String)
    (h : findByEmail l (some e) = none) (he : m.email = e) :
    findByEmail (l ++ [m]) (some e) = some m := by
  unfold findByEmail at h ⊢
  rw [List.find?_append, h]
  simp [List.find?_cons, he]

/-- Appending a member with a previously unseen email leaves exactly one
member carrying it. -/
theorem countEmail_append_single (l : List Member) (m : Member) (e : String)
    (he : m.email = e) (h0 : ∀ u ∈ l, e ≠ u.email) :
    countEmail (l ++ [m]) e = 1 := by
  unfold countEmail
  rw [List.filter_append]
  have h1 : l.filter (fun u => u.email = e) = [] := by
    rw [List.filter_eq_nil_iff]
    intro u hu
    simp only [decide_eq_true_eq]
    exact fun hh => (h0 u hu) hh.symm
  rw [h1]
  simp [List.filter_cons, he]

/-- Replacing the saved document changes no stored email when every
stored document carrying its id already carries its email. -/
theorem map_email_saveUser_eq (users : List Member) (m2 : Member)
    (h : ∀ u ∈ users, u._id = m2._id → u.email = m2.email) :
    (saveUser users m2).map Member.email = users.map Member.email := by
  simp only [saveUser, List.map_map]
  refine List.map_congr_left ?_
  intro u hu
  by_cases hid : u._id = m2._id
  · simp [Function.comp, hid, h u hu hid]
  · simp [Function.comp, hid]

/-- Saving a document whose email no stored member carries preserves
email uniqueness when the stored ids are distinct. -/
theorem nodup_email_saveUser_fresh (users : List Member) (m2 : Member)
    (hU : (users.map Member.email).Nodup) (hI : (users.map Member._id).Nodup)
    (hfresh : ∀ u ∈ users, u.email ≠ m2.email) :
    ((saveUser users m2).map Member.email).Nodup := by
  have hU2 : users.Pairwise (fun a b => a.email ≠ b.email) :=
    List.pairwise_map.mp hU
  have hI2 : users.Pairwise (fun a b => a._id ≠ b._id) :=
    List.pairwise_map.mp hI
  have hres : users.Pairwise (fun a b =>
      (if a._id = m2._id then m2 else a).email
        ≠ (if b._id = m2._id then m2 else b).email) := by
    refine (hU2.and hI2).imp_of_mem ?_
    intro a b ha hb hab
    by_cases haid : a._id = m2._id
    · by_cases hbid : b._id = m2._id
      · exact absurd (haid.trans hbid.symm) hab.2
      · rw [if_pos haid, if_neg hbid]
        exact fun he => hfresh b hb he.symm
    · by_cases hbid : b._id = m2._id
      · rw [if_neg haid, if_pos hbid]
        exact hfresh a ha
      · rw [if_neg haid, if_neg hbid]
        exact hab.1
  simp only [saveUser, List.map_map]
  exact List.pairwise_map.mpr hres

/-- The 400 duplicate-email branch of createMember. -/
theorem createMember_dup (s : Store) (p : MemberPayload) (newId now : Nat)
    (u : Member) (hfe : findByEmail s.users p.email = some u) :
    createMemberHandler (some "admin") p newId now s
      = ⟨⟨400, errBody "User with this email already exists"⟩, s,
          [.userFindOne p.email]⟩ := by
  simp [createMemberHandler, hfe]

/-- The 500 schema-validation branch of createMember. -/
theorem createMember_invalid (s : Store) (p : MemberPayload) (newId now : Nat)
    (hfe : findByEmail s.users p.email = none)
    (hinv : p.name.getD "" = "" ∨ p.email.getD "" = "" ∨
      (strOr p.status "active" ≠ "active" ∧ strOr p.status "active" ≠ "inactive")) :
    createMemberHandler (some "admin") p newId now s
      = ⟨⟨500, errBody "Failed to add team member"⟩, s,
          [.userFindOne p.email]⟩ := by
  rcases hinv with h | h | ⟨h1, h2⟩
  · simp [createMemberHandler, hfe, memberDocValid, h]
  · simp [createMemberHandler, hfe, memberDocValid, h]
  · simp [createMemberHandler, hfe, memberDocValid, h1, h2]

/-- The success branch of createMember: the new member is appended. -/
theorem createMember_success_store (s : Store) (p : MemberPayload)
    (newId now : Nat) (e : String) (hpe : p.email = some e)
    (hfe : findByEmail s.users (some e) = none)
    (hname : ¬ p.name.getD "" = "") (he : ¬ e = "")
    (hstv : strOr p.status "active" = "active" ∨
      strOr p.status "active" = "inactive") :
    (createMemberHandler (some "admin") p newId now s).store.users
      = s.users ++ [⟨newId, p.name.getD "", e, strOr p.role "contributor",
          strOr p.githubUsername "", p.assignedProjects.getD [],
          strOr p.status "active", now, "password123"⟩] ∧
    (createMemberHandler (some "admin") p newId now s).resp.status = 200 := by
  rcases hstv with hsv | hsv <;>
    constructor <;>
      simp [createMemberHandler, hpe, hfe, memberDocValid, hname, he, hsv]

/-- createMember preserves email uniqueness. -/
theorem uniqueEmails_createMember (s : Store) (role : Option String)
    (p : MemberPayload) (newId now : Nat) (hU : uniqueEmails s.users) :
    uniqueEmails ((createMemberHandler role p newId now s).store.users) := by
  by_cases hrole : role ≠ some "admin"
  · have h : createMemberHandler role p newId now s = ⟨accessDenied, s, []⟩ := by
      simp [createMemberHandler, hrole]
    rw [h]; exact hU
  · obtain rfl : role = some "admin" := not_not.mp hrole
    cases hfe : findByEmail s.users p.email with
    | some u => rw [createMember_dup s p newId now u hfe]; exact hU
    | none =>
      cases hpe : p.email with
      | none =>
        rw [createMember_invalid s p newId now hfe (Or.inr (Or.inl (by simp [hpe])))]
        exact hU
      | some e =>
        by_cases hname : p.name.getD "" = ""
        · rw [createMember_invalid s p newId now hfe (Or.inl hname)]; exact hU
        · by_cases he : e = ""
          · rw [createMember_invalid s p newId now hfe
              (Or.inr (Or.inl (by simp [hpe, he])))]
            exact hU
          · by_cases hstv : strOr p.status "active" = "active" ∨
              strOr p.status "active" = "inactive"
            swap
            · rw [createMember_invalid s p newId now hfe
                (Or.inr (Or.inr (not_or.mp hstv)))]
              exact hU
            rw [hpe] at hfe
            have hsucc := createMember_success_store s p newId now e hpe hfe hname he hstv
            have hall := (findByEmail_some_none_iff s.users e).mp hfe
            unfold uniqueEmails
            rw [hsucc.1, List.map_append, List.nodup_append]
            refine ⟨hU, by simp, ?_⟩
            intro a ha hb
            simp only [List.map_cons, List.map_nil, List.mem_singleton] at hb
            subst hb
            rcases List.mem_map.mp ha with ⟨u, hu, hue⟩
            exact hall u hu hue.symm

/-- The save step of updateMember preserves email uniqueness when the
updated email is the stored one or fresh in the collection. -/
theorem uniqueEmails_finishMemberUpdate (s : Store) (m : Member)
    (p : MemberPayload) (ops : List StoreOp) (hU : uniqueEmails s.users)
    (hI : (s.users.map Member._id).Nodup) (hmem : m ∈ s.users)
    (hsafe : (applyMemberUpdate m p).email = m.email ∨
      ∀ u ∈ s.users, u.email ≠ (applyMemberUpdate m p).email) :
    uniqueEmails ((finishMemberUpdate m p s ops).store.users) := by
  unfold finishMemberUpdate
  by_cases hval : memberDocValid (applyMemberUpdate m p) = true
  · rw [if_pos hval]
    show ((saveUser s.users (applyMemberUpdate m p)).map Member.email).Nodup
    rcases hsafe with hsame | hfresh
    · rw [map_email_saveUser_eq]
      · exact hU
      · intro u hu hid
        have hum : u = m := List.inj_on_of_nodup_map hI hu hmem hid
        rw [hum]
        exact hsame.symm
    · exact nodup_email_saveUser_fresh s.users _ hU hI hfresh
  · rw [if_neg hval]
    exact hU

/-- updateMember preserves email uniqueness. -/
theorem uniqueEmails_updateMember (s : Store) (role : Option String) (i : Nat)
    (p : MemberPayload) (hU : uniqueEmails s.users)
    (hI : (s.users.map Member._id).Nodup) :
    uniqueEmails ((updateMemberHandler role i p s).store.users) := by
  by_cases hrole : role ≠ some "admin"
  · have h : updateMemberHandler role i p s = ⟨accessDenied, s, []⟩ := by
      simp [updateMemberHandler, hrole]
    rw [h]; exact hU
  · obtain rfl : role = some "admin" := not_not.mp hrole
    cases hm : findUserById s.users i with
    | none =>
      have h : updateMemberHandler (some "admin") i p s
          = ⟨⟨404, errBody "Team member not found"⟩, s, [.userFindById i]⟩ := by
        simp [updateMemberHandler, hm]
      rw [h]; exact hU
    | some m =>
      have hmem : m ∈ s.users := List.mem_of_find?_eq_some hm
      by_cases hne : p.email ≠ some m.email
      · cases hfe : findByEmail s.users p.email with
        | some u =>
          have h : updateMemberHandler (some "admin") i p s
              = ⟨⟨400, errBody "Email already in use by another user"⟩, s,
                  [.userFindById i, .userFindOne p.email]⟩ := by
            simp [updateMemberHandler, hm, hne, hfe]
          rw [h]; exact hU
        | none =>
          have h : updateMemberHandler (some "admin") i p s
              = finishMemberUpdate m p s [.userFindById i, .userFindOne p.email] := by
            simp [updateMemberHandler, hm, hne, hfe]
          rw [h]
          apply uniqueEmails_finishMemberUpdate s m p _ hU hI hmem
          cases hpe : p.email with
          | none =>
            left
            simp [applyMemberUpdate, strOr, hpe]
          | some e =>
            by_cases he : e = ""
            · left
              simp [applyMemberUpdate, strOr, hpe, he]
            · right
              intro u hu
              rw [hpe] at hfe
              have hall := (findByEmail_some_none_iff s.users e).mp hfe
              have hee : (applyMemberUpdate m p).email = e := by
                simp [applyMemberUpdate, strOr, hpe, he]
              rw [hee]
              exact fun hh => hall u hu hh.symm
      · have hpe : p.email = some m.email := not_not.mp hne
        have h : updateMemberHandler (some "admin") i p s
            = finishMemberUpdate m p s [.userFindById i] := by
          simp [updateMemberHandler, hm, hpe]
        rw [h]
        apply uniqueEmails_finishMemberUpdate s m p _ hU hI hmem
        left
        simp [applyMemberUpdate, strOr, hpe]

/-- deleteMember preserves email uniqueness. -/
theorem uniqueEmails_deleteMember (s : Store) (role : Option String) (i : Nat)
    (hU : uniqueEmails s.users) :
    uniqueEmails ((deleteMemberHandler role i s).store.users) := by
  by_cases hrole : role ≠ some "admin"
  · have h : deleteMemberHandler role i s = ⟨accessDenied, s, []⟩ := by
      simp [deleteMemberHandler, hrole]
    rw [h]; exact hU
  · obtain rfl : role = some "admin" := not_not.mp hrole
    cases hm : findUserById s.users i with
    | none =>
      have h : deleteMemberHandler (some "admin") i s
          = ⟨⟨404, errBody "Team member not found"⟩, s, [.userFindById i]⟩ := by
        simp [deleteMemberHandler, hm]
      rw [h]; exact hU
    | some m =>
      have h : (deleteMemberHandler (some "admin") i s).store.users
          = s.users.filter (fun u => u._id ≠ i) := by
        simp [deleteMemberHandler, hm]
      rw [uniqueEmails, h]
      exact List.Nodup.sublist
        ((List.filter_sublist s.users).map Member.email) hU

/-- C2: email uniqueness is an invariant preserved by every member
operation; createMember fails with the duplicate-email conflict when a
member with the supplied email exists; updateMember fails with the
conflict when the supplied email differs from the stored one and belongs
to another member; and after two sequential createMember calls with the
same email, the second fails and the store holds exactly one member with
that email. -/
theorem c2_email_uniqueness (s : Store) (hU : uniqueEmails s.users)
    (hI : (s.users.map Member._id).Nodup) :
    (∀ role p newId now,
      uniqueEmails ((createMemberHandler role p newId now s).store.users)) ∧
    (∀ role i p, uniqueEmails ((updateMemberHandler role i p s).store.users)) ∧
    (∀ role i, uniqueEmails ((deleteMemberHandler role i s).store.users)) ∧
    (∀ p newId now u, findByEmail s.users p.email = some u →
      createMemberHandler (some "admin") p newId now s
        = ⟨⟨400, errBody "User with this email already exists"⟩, s,
            [.userFindOne p.email]⟩) ∧
    (∀ i p m u, findUserById s.users i = some m → p.email ≠ some m.email →
      findByEmail s.users p.email = some u →
      updateMemberHandler (some "admin") i p s
        = ⟨⟨400, errBody "Email already in use by another user"⟩, s,
            [.userFindById i, .userFindOne p.email]⟩) ∧
    (∀ p e newId1 now1 newId2 now2, p.email = some e →
      (createMemberHandler (some "admin") p newId1 now1 s).resp.status = 200 →
      (createMemberHandler (some "admin") p newId2 now2
          (createMemberHandler (some "admin") p newId1 now1 s).store).resp
        = ⟨400, errBody "User with this email already exists"⟩ ∧
      countEmail ((createMemberHandler (some "admin") p newId2 now2
          (createMemberHandler (some "admin") p newId1 now1 s).store).store.users) e
        = 1) := by
  refine ⟨?_, ?_, ?_, ?_, ?_, ?_⟩
  · intro role p newId now
    exact uniqueEmails_createMember s role p newId now hU
  · intro role i p
    exact uniqueEmails_updateMember s role i p hU hI
  · intro role i
    exact uniqueEmails_deleteMember s role i hU
  · intro p newId now u hfe
    exact createMember_dup s p newId now u hfe
  · intro i p m u hm hne hfe
    simp [updateMemberHandler, hm, hne, hfe]
  · intro p e newId1 now1 newId2 now2 hpe h200
    cases hfe : findByEmail s.users p.email with
    | some u =>
      rw [createMember_dup s p newId1 now1 u hfe] at h200
      simp at h200
    | none =>
      by_cases hname : p.name.getD "" = ""
      · rw [createMember_invalid s p newId1 now1 hfe (Or.inl hname)] at h200
        simp at h200
      · by_cases he : e = ""
        · rw [createMember_invalid s p newId1 now1 hfe
            (Or.inr (Or.inl (by simp [hpe, he])))] at h200
          simp at h200
        · by_cases hstv : strOr p.status "active" = "active" ∨
            strOr p.status "active" = "inactive"
          swap
          · rw [createMember_invalid s p newId1 now1 hfe
              (Or.inr (Or.inr (not_or.mp hstv)))] at h200
            simp at h200
          rw [hpe] at hfe
          have hsucc := createMember_success_store s p newId1 now1 e hpe hfe hname he hstv
          have hall := (findByEmail_some_none_iff s.users e).mp hfe
          have hfind2 : findByEmail
              ((createMemberHandler (some "admin") p newId1 now1 s).store.users)
              (some e)
              = some ⟨newId1, p.name.getD "", e, strOr p.role "contributor",
                  strOr p.githubUsername "", p.assignedProjects.getD [],
                  strOr p.status "active", now1, "password123"⟩ := by
            rw [hsucc.1]
            exact findByEmail_append_single s.users _ e hfe rfl
          have hdup2 := createMember_dup
            ((createMemberHandler (some "admin") p newId1 now1 s).store)
            p newId2 now2 _ (by rw [hpe]; exact hfind2)
          refine ⟨by rw [hdup2], ?_⟩
          simp only [hdup2]
          rw [hsucc.1]
          exact countEmail_append_single s.users _ e rfl hall

/-- Witness for C2: two creates with the same email on the empty store,
the second failing and the email count ending at one. -/
theorem c2_witness :
    uniqueEmails ([] : List Member) ∧
    (createMemberHandler (some "admin")
        ⟨some "Bo", some "bo@x.io", none, none, none, none⟩ 2 1
        (createMemberHandler (some "admin")
          ⟨some "Bo", some "bo@x.io", none, none, none, none⟩ 1 0 ⟨[], []⟩).store).resp
      = ⟨400, errBody "User with this email already exists"⟩ ∧
    countEmail ((createMemberHandler (some "admin")
        ⟨some "Bo", some "bo@x.io", none, none, none, none⟩ 2 1
        (createMemberHandler (some "admin")
          ⟨some "Bo", some "bo@x.io", none, none, none, none⟩ 1 0 ⟨[], []⟩).store).store.users)
      "bo@x.io" = 1 := by
  have h := (c2_email_uniqueness ⟨[], []⟩ (by decide) (by decide)).2.2.2.2.2
    ⟨some "Bo", some "bo@x.io", none, none, none, none⟩ "bo@x.io" 1 0 2 1
    rfl (by rfl)
  exact ⟨by decide, h.1, h.2⟩

end FoodBridge
